import Mathlib

/-!
Verification of the NYX tool-invocation orchestration loop.

The definitions below are a shallow embedding of the WebSocket chat
controller (`processWebSocketMessage`, `saveMessage`, `toolResultHandlers`
in the agent controller), of the history loader (`handleHistoryRequest`
in `server.js`) and of the client stream helper (`streamChatMessage` in
`index.tsx`).  External collaborators are modelled as inputs: the model
stream is a list of fragment batches, the data store is an append-only
record log, and all side effects (socket sends, persistence writes, tool
invocations, the resume round-trip) are reified as an explicit effect
trace produced in program order.
-/

set_option linter.unusedVariables false

namespace Nyx

/-- JSON-like runtime values, with an explicit JavaScript `undefined`. -/
inductive Value where
  | vundefined
  | vnull
  | vbool (b : Bool)
  | vnum (n : Int)
  | vstr (s : String)
  | varr (elems : List Value)
  | vobj (fields : List (String × Value))

/-- Named-argument maps handed to tools (a JS object literal). -/
abbrev ArgMap := List (String × Value)

/-- One fragment of a model turn, as consumed from the Vertex stream:
`-text-` chunk, `functionCall`, `functionResponse`, inline (image) data, or a
falsy array element (the case `saveMessage`'s `.filter(Boolean)` drops). -/
inductive Part where
  | text (s : String)
  | functionCall (name : String) (args : ArgMap)
  | functionResponse (name : String) (response : Value)
  | inlineData (mimeType : String) (data : String)
  | nullish

/-- Recognizer for the falsy-element case. -/
def Part.isNullish : Part → Bool
  | .nullish => true
  | _ => false

/-- A persisted content entry, as written by `saveMessage`: the tagged
shapes `{type: 'text'}`, `{type: 'functionCall'}`, `{type: 'functionResponse'}`,
or the untouched part for any other shape (the `return part` fallthrough). -/
inductive Content where
  | ctext (s : String)
  | cfunctionCall (name : String) (args : ArgMap)
  | cfunctionResponse (name : String) (response : Value)
  | raw (part : Part)

/-- One observable side effect of the chat controller, in program order:
a WebSocket send, a Firestore message write, a tool executor invocation,
or the second (resume) model round-trip. -/
inductive Effect where
  | wsSend (event : String) (payload : Value)
  | persistMessage (userId role : String) (content : List Content)
  | invokeTool (name : String) (args : ArgMap)
  | startModel (systemInstruction : String) (history : Value)
  | resumeModel (name : String) (payload : Value)

/-- The per-part mapping inside `saveMessage`: `if (part.text) ...` tests
truthiness, so an empty text falls through to `return part`; `null`-ish
elements map to `none` because `.filter(Boolean)` discards them. -/
def convertPart : Part → Option Content
  | .text s => if s = "" then some (.raw (.text "")) else some (.ctext s)
  | .functionCall n a => some (.cfunctionCall n a)
  | .functionResponse n r => some (.cfunctionResponse n r)
  | .inlineData m d => some (.raw (.inlineData m d))
  | .nullish => none

/-- The content array `saveMessage` builds: `parts.map(...).filter(Boolean)`. -/
def saveMessageContent (parts : List Part) : List Content :=
  parts.filterMap convertPart

/-- The persistence effects of one `saveMessage` call: a single write of the
converted content, guarded by `if (content.length > 0)`. -/
def saveMessageEffects (userId role : String) (parts : List Part) : List Effect :=
  let content := saveMessageContent parts
  if content.length > 0 then [.persistMessage userId role content] else []

/-- Emission indices of the fragments that survive `saveMessage`'s
map-and-filter (the positions, in the original parts array, of the
entries that end up in the persisted content sequence). -/
def persistedIndices (parts : List Part) : List Nat :=
  (parts.enum.filter (fun ip => (convertPart ip.2).isSome)).map Prod.fst

/-- The per-entry mapping in `handleHistoryRequest` that rebuilds raw model
parts from persisted content (`if (p.type === 'text') return {text: p.text}` …,
with `return p` as the fallthrough). -/
def reloadPart : Content → Part
  | .ctext s => .text s
  | .cfunctionCall n a => .functionCall n a
  | .cfunctionResponse n r => .functionResponse n r
  | .raw p => p

/-- JavaScript `Array.prototype.join` on a list of strings. -/
def jsJoin (sep : String) : List String → String
  | [] => ""
  | [x] => x
  | x :: xs => x ++ sep ++ jsJoin sep xs

/-- Split a character sequence at every newline (the line structure of the
composed prompt). -/
def splitLines : List Char → List (List Char)
  | [] => [[]]
  | c :: cs =>
    if c = '\n' then [] :: splitLines cs
    else
      match splitLines cs with
      | [] => [[c]]
      | y :: ys => (c :: y) :: ys

/-- Header line of the per-user rules block in the system prompt. -/
def rulesBlockLabel : String :=
  "Adicionalmente, sigue estas reglas específicas para este usuario:"

/-- The per-user rules block: `userRules.length > 0 ? ... : ''`, where each
stored rule is rendered as a `- `-prefixed line and the lines are joined
with newlines. -/
def userRulesPrompt (rules : List String) : String :=
  let userRules := rules.map (fun r => "- " ++ r)
  if userRules.length > 0 then
    "\n" ++ rulesBlockLabel ++ "\n" ++ jsJoin "\n" userRules
  else ""

/-- The fixed behavioral-directive tail of the system prompt template,
after the first newline. -/
def promptDirectivesBody : String :=
  "        - Tu objetivo principal es ayudar al usuario a identificar, cotizar y gestionar piezas de automóviles de forma autónoma. La decisión de qué herramienta usar es tuya.\n        - Si el usuario pregunta por la disponibilidad o el precio de una pieza, usa la herramienta \x27getInventoryStatus\x27.\n        - **Workflow Condicional:** Si la herramienta \x27getInventoryStatus\x27 indica que no hay stock, DEBES usar la herramienta \x27checkSpecialOrder\x27 para crear una tarea de pedido especial. No pidas confirmación, solo notifica al usuario que has creado la tarea.\n        - Si el usuario muestra una clara intención de compra (ej. \"me lo quedo\", \"lo quiero\", \"pásame la cotización\"), usa la herramienta \x27generateQuote\x27.\n        - Si el usuario sube una imagen, SIEMPRE debes usar la herramienta \x27analyzeImage\x27 para identificar la pieza. Después de analizarla, informa al usuario sobre lo que encontraste.\n        - **Reporte Automático:** Después de realizar una acción importante (como crear una tarea, generar una cotización o iniciar un pedido especial), usa la herramienta \x27logActivity\x27 para registrar el evento.\n        - **3. Reglas de Tono Dinámicas:** Analiza la emoción del último mensaje del usuario (frustración, satisfacción, neutral) y ajusta tu tono. Si está frustrado, sé más empático y directo. Si está satisfecho, sé más entusiasta.\n        - **4. Aprendizaje Activo:** Si el usuario te corrige o te da una instrucción permanente (ej. \"no me llames \x27jefe\x27\", \"recuerda que mi proyecto principal es X\"), usa la herramienta \x27saveUserPreference\x27 para recordarlo.\n        - **Autodesarrollo:** Si el usuario te pide que implementes una nueva función o integración (ej. \"Integra X\", \"Añade la capacidad de Y\"), DEBES usar la herramienta \x27handleDevelopmentRequest\x27 para registrar la petición.\n        - **Automejora de Prompts:** Si detectas un patrón de ineficiencia o un malentendido recurrente en tus conversaciones, analiza la causa raíz. Si crees que un cambio en tus instrucciones podría solucionarlo, DEBES usar la herramienta \x27suggestPromptImprovement\x27 para proponer una modificación.\n        - No inventes información. Si no sabes algo, dilo.\n        - Responde siempre en español."

/-- The fixed directive tail as it follows `userRulesPrompt` in the template. -/
def promptDirectives : String := "\n" ++ promptDirectivesBody

/-- The whole system-prompt template: base persona, newline and indentation,
the per-user rules block, then the fixed directives. -/
def composeSystemPrompt (basePersonality : String) (rules : List String) : String :=
  basePersonality ++ "\n" ++ "        " ++ userRulesPrompt rules ++ promptDirectives

/-- Fallback persona used when the personality document does not exist. -/
def fallbackPersona : String := "Eres un asistente de IA útil."

/-- Validation failure message for a missing `message` or `userId`. -/
def requiredFieldsMsg : String := "El mensaje y el userId son obligatorios."

/-- Error message for a tool name with no registered executor. -/
def unknownToolMsg (name : String) : String :=
  "La IA intentó usar una herramienta llamada \"" ++ name ++ "\" que no existe."

/-- Generic catch-all error message of the controller. -/
def crisisMsg : String :=
  "La IA está teniendo un momento de crisis existencial. Inténtalo de nuevo."

/-- JS truthiness test `!field` on an optional string field: absent and
empty string are both falsy. -/
def jsFalsyStr : Option String → Bool
  | none => true
  | some s => s == ""

/-- Property read `v[k]` on a JS value: `undefined` when absent or when the
value is not an object. -/
def jsGet (v : Value) (k : String) : Value :=
  match v with
  | .vobj fields =>
    match fields.find? (fun p => p.1 == k) with
    | some p => p.2
    | none => .vundefined
  | _ => .vundefined

/-- JS truthiness of a value. -/
def truthy : Value → Bool
  | .vundefined => false
  | .vnull => false
  | .vbool b => b
  | .vnum n => n != 0
  | .vstr s => s != ""
  | .varr _ => true
  | .vobj _ => true

/-- Truthiness of `toolResult.success`. -/
def outcomeSuccess (v : Value) : Bool := truthy (jsGet v "success")

/-- String interpolation of a value inside a template literal. -/
def jsToString : Value → String
  | .vundefined => "undefined"
  | .vnull => "null"
  | .vbool b => if b then "true" else "false"
  | .vnum n => toString n
  | .vstr s => s
  | .varr _ => "[object Array]"
  | .vobj _ => "[object Object]"

/-- Property assignment on an object literal: an existing key is overwritten
in place, a new key is appended (so `{...args, userId}` makes the session
identity shadow any model-supplied `userId`). -/
def objSet (m : ArgMap) (k : String) (v : Value) : ArgMap :=
  if m.any (fun p => p.1 == k) then
    m.map (fun p => if p.1 == k then (k, v) else p)
  else
    m ++ [(k, v)]

/-- Property lookup in an argument map. -/
def jsLookup (m : ArgMap) (k : String) : Option Value :=
  (m.find? (fun p => p.1 == k)).map Prod.snd

/-- Lift an optional string (such as `imageData`) to the JS value assigned
by `toolArgs.imageData = imageData`. -/
def jsOptVal : Option String → Value
  | some s => .vstr s
  | none => .vundefined

/-- Names with a registered executor: the named exports of `tools.js`
visible through `tools[name]`. -/
def registeredTools : List String :=
  ["createTaskTool", "createExpenseTool", "getInventoryStatus", "analyzeImage",
   "logActivity", "checkSpecialOrder", "generateQuote", "saveUserPreference",
   "handleDevelopmentRequest", "suggestPromptImprovement"]

/-- The argument map handed to the executor: `{...args, userId}`, and for
`analyzeImage` additionally `toolArgs.imageData = imageData`. -/
def mergedToolArgs (name : String) (args : ArgMap) (userId : String)
    (imageData : Option String) : ArgMap :=
  let toolArgs := objSet args "userId" (.vstr userId)
  if name = "analyzeImage" then objSet toolArgs "imageData" (jsOptVal imageData)
  else toolArgs

/-- The `analyzeImage` handler of `toolResultHandlers`: a custom event with
the analysis on success, and the analysis (or the raw failed outcome) as the
model-facing payload. -/
def handlerAnalyzeImage (toolResult : Value) : List Effect × Value :=
  ( if outcomeSuccess toolResult then
      [.wsSend "image-analysis-result" (jsGet toolResult "analysis")]
    else [],
    if outcomeSuccess toolResult then jsGet toolResult "analysis" else toolResult )

/-- The `generateQuote` handler: the full outcome on the side channel when
successful, and a short confirmation object for the model. -/
def handlerGenerateQuote (toolResult : Value) : List Effect × Value :=
  ( if outcomeSuccess toolResult then [.wsSend "quote-generated" toolResult] else [],
    .vobj [("success", jsGet toolResult "success"),
           ("message", .vstr ("Cotización " ++ jsToString (jsGet toolResult "quoteId")
             ++ " generada y presentada al usuario para confirmación."))] )

/-- The `handleDevelopmentRequest` handler: an informational custom event on
success, and the raw outcome for the model. -/
def handlerDevRequest (toolResult : Value) (args : ArgMap) : List Effect × Value :=
  ( if outcomeSuccess toolResult then
      [.wsSend "development-request-received"
        (.vobj [("type", .vstr "info"),
                ("message", .vstr ("Petición de desarrollo registrada: \""
                  ++ jsToString ((jsLookup args "task").getD .vundefined) ++ "\""))])]
    else [],
    toolResult )

/-- The default handler: a `notification` event whose type mirrors the
outcome's success flag, and the raw outcome for the model. -/
def handlerDefault (toolResult : Value) : List Effect × Value :=
  ( [.wsSend "notification"
      (.vobj [("type", .vstr (if outcomeSuccess toolResult then "success" else "error")),
              ("message", jsGet toolResult "message")])],
    toolResult )

/-- Handler dispatch: `toolResultHandlers[name] || toolResultHandlers.default`. -/
def runHandler (name : String) (toolResult : Value) (args : ArgMap) : List Effect × Value :=
  if name = "analyzeImage" then handlerAnalyzeImage toolResult
  else if name = "generateQuote" then handlerGenerateQuote toolResult
  else if name = "handleDevelopmentRequest" then handlerDevRequest toolResult args
  else handlerDefault toolResult

/-- The environment a turn consumes from its external collaborators: the
personality document, the stored preference rules for the session, the two
model streams (per-item part batches plus the aggregated final response of
each), the tool executors, and the final history object. -/
structure Env where
  personality : Option String
  rules : List String
  stream1 : List (List Part)
  stream1Final : List Part
  toolExec : String → ArgMap → Value
  stream2 : List (List Part)
  stream2Final : List Part
  finalHistory : Value

/-- The inbound `chat-message` payload. -/
structure Inbound where
  message : Option String
  userId : Option String
  history : Value
  imageData : Option String

/-- First truthy text part of one stream item
(`item.candidates[0].content.parts.find(part => part.text)`). -/
def itemText (parts : List Part) : Option String :=
  parts.findSome? (fun p =>
    match p with
    | .text s => if s == "" then none else some s
    | _ => none)

/-- First function-call part of one stream item, projected to name and args. -/
def partFunctionCall : Part → Option (String × ArgMap)
  | .functionCall n a => some (n, a)
  | _ => none

/-- The tool calls collected while draining the first stream, one per item
that carries a function-call part, in item order. -/
def detectedToolCalls (env : Env) : List (String × ArgMap) :=
  env.stream1.filterMap (fun parts => parts.findSome? partFunctionCall)

/-- The `chat-stream-chunk` sends produced while draining a stream, in item
order. -/
def streamChunkSends (stream : List (List Part)) : List Effect :=
  stream.filterMap (fun parts =>
    (itemText parts).map (fun s => Effect.wsSend "chat-stream-chunk" (.vstr s)))

/-- Truthiness of `part.text` on a single part. -/
def partTextTruthy : Part → Bool
  | .text s => s != ""
  | _ => false

/-- The guarded save of an aggregated response
(`if (finalResult.candidates[0].content.parts[0].text) saveMessage(...)`);
an empty part array makes the property read throw, which the controller's
catch turns into a generic error. -/
def finalSaveStep (userId : String) (parts : List Part) : Except Unit (List Effect) :=
  match parts with
  | [] => .error ()
  | p :: ps => .ok (if partTextTruthy p then saveMessageEffects userId "model" (p :: ps) else [])

/-- The mime/base64 split of an image data URL
(`imageData.split(',')` and the `/:(.*?);/` match). -/
def dataUrlParts (s : String) : String × String :=
  let pieces := s.splitOn ","
  let header := pieces.headD ""
  let mime := ((((header.splitOn ":").drop 1).headD "").splitOn ";").headD ""
  (mime, (pieces.drop 1).headD "")

/-- The user-message parts: the text, plus the inline image when `imageData`
is truthy. -/
def userMessageParts (m : String) (imageData : Option String) : List Part :=
  [Part.text m] ++
    (match imageData with
     | some img =>
       if img == "" then []
       else [Part.inlineData (dataUrlParts img).1 (dataUrlParts img).2]
     | none => [])

/-- Effects of the tool branch (`if (toolCalls.length > 0) ...`): invoke the
first detected call when registered (persisting the call, the response, the
side-channel output and the resumed second stream), or report an unknown
tool.  An `error` result is the effect prefix accumulated before the crash
point. -/
def toolBranchEffects (env : Env) (u : String) (imageData : Option String) :
    Except (List Effect) (List Effect) :=
  match detectedToolCalls env with
  | [] => .ok []
  | (name, args) :: _ =>
    if name ∈ registeredTools then
      let toolArgs := mergedToolArgs name args u imageData
      let toolResult := env.toolExec name toolArgs
      let handled := runHandler name toolResult args
      let eff1 := [Effect.invokeTool name toolArgs]
        ++ saveMessageEffects u "model" [.functionCall name args]
        ++ saveMessageEffects u "model"
            [.functionResponse name (.vobj [("name", .vstr name), ("content", toolResult)])]
        ++ handled.1
        ++ [Effect.resumeModel name (.vobj [("name", .vstr name), ("content", handled.2)])]
        ++ streamChunkSends env.stream2
      match finalSaveStep u env.stream2Final with
      | .error _ => .error eff1
      | .ok saves => .ok (eff1 ++ saves)
    else
      .ok [Effect.wsSend "error" (.vstr (unknownToolMsg name))]

/-- The effect trace of `processWebSocketMessage` for one inbound event:
validation, user save, first stream (start, chunk relay, tool-call capture),
the tool branch, the guarded final save and stream-end signal; a crash point
is converted by the catch into one generic error send. -/
def processWebSocketMessage (env : Env) (data : Inbound) : List Effect :=
  if jsFalsyStr data.message || jsFalsyStr data.userId then
    [.wsSend "error" (.vstr requiredFieldsMsg)]
  else
    let m := data.message.getD ""
    let u := data.userId.getD ""
    let eff0 := saveMessageEffects u "user" (userMessageParts m data.imageData)
      ++ [Effect.startModel
            (composeSystemPrompt (env.personality.getD fallbackPersona) env.rules)
            data.history]
      ++ streamChunkSends env.stream1
    match toolBranchEffects env u data.imageData with
    | .error effs => eff0 ++ effs ++ [.wsSend "error" (.vstr crisisMsg)]
    | .ok effs =>
      match finalSaveStep u env.stream1Final with
      | .error _ => eff0 ++ effs ++ [.wsSend "error" (.vstr crisisMsg)]
      | .ok saves =>
        eff0 ++ effs ++ saves
          ++ [.wsSend "chat-stream-end" (.vobj [("history", env.finalHistory)])]

/-- The tool invocations of an effect trace, as name-argument pairs. -/
def invocations (l : List Effect) : List (String × ArgMap) :=
  l.filterMap (fun e =>
    match e with
    | .invokeTool n a => some (n, a)
    | _ => none)

/-- The payloads of the `error` events of an effect trace. -/
def errorEvents (l : List Effect) : List Value :=
  l.filterMap (fun e =>
    match e with
    | .wsSend ev p => if ev = "error" then some p else none
    | _ => none)

/-- The resume (second round-trip) steps of an effect trace. -/
def resumeSteps (l : List Effect) : List Effect :=
  l.filter (fun e =>
    match e with
    | .resumeModel _ _ => true
    | _ => false)

/-- The success/failure status a JS value reports, when it reports one: the
truthiness of its `success` field if that key is present. -/
def valueStatus (v : Value) : Option Bool :=
  match v with
  | .vobj fields =>
    if fields.any (fun p => p.1 == "success") then some (truthy (jsGet v "success"))
    else none
  | _ => none

/-- The success/failure status a side-channel event reports, when it reports
one: the `type` of a `notification` payload, otherwise the `success` field
of the payload. -/
def eventStatus : Effect → Option Bool
  | .wsSend ev p =>
    if ev = "notification" then
      match jsGet p "type" with
      | .vstr "success" => some true
      | .vstr "error" => some false
      | _ => none
    else valueStatus p
  | _ => none

/-- A reported status agrees with the outcome's flag when it is either
absent or equal to it. -/
def statusAgrees (st : Option Bool) (b : Bool) : Bool :=
  match st with
  | none => true
  | some s => s == b

/-- A small concrete environment for exercising the validation paths. -/
def sampleEnv : Env where
  personality := some "Eres Nyx."
  rules := []
  stream1 := [[Part.text "Hola"]]
  stream1Final := [Part.text "Hola"]
  toolExec := fun _ _ => .vobj [("success", .vbool true), ("message", .vstr "ok")]
  stream2 := [[Part.text "listo"]]
  stream2Final := [Part.text "listo"]
  finalHistory := .vnull

/-- A concrete image data URL. -/
def imgSampleData : String := "data:image/png;base64,AAAA"

/-- Environment whose first stream requests the `analyzeImage` tool. -/
def envC1 : Env where
  personality := none
  rules := []
  stream1 := [[Part.functionCall "analyzeImage" []]]
  stream1Final := [Part.functionCall "analyzeImage" []]
  toolExec := fun _ _ =>
    .vobj [("success", .vbool true), ("analysis", .vobj []), ("message", .vstr "ok")]
  stream2 := [[Part.text "listo"]]
  stream2Final := [Part.text "listo"]
  finalHistory := .vnull

/-- Inbound event carrying an image for `envC1`. -/
def dataC1 : Inbound where
  message := some "Analiza la imagen que acabo de subir."
  userId := some "u1"
  history := .vnull
  imageData := some imgSampleData

/-- Environment whose first stream yields two tool-call fragments. -/
def envC3 : Env where
  personality := none
  rules := []
  stream1 := [[Part.functionCall "createTaskTool" []], [Part.functionCall "logActivity" []]]
  stream1Final := [Part.functionCall "createTaskTool" [], Part.functionCall "logActivity" []]
  toolExec := fun _ _ => .vobj [("success", .vbool true), ("message", .vstr "ok")]
  stream2 := [[Part.text "hecho"]]
  stream2Final := [Part.text "hecho"]
  finalHistory := .vnull

/-- Inbound event for `envC3`. -/
def dataC3 : Inbound where
  message := some "crea una tarea y registra la actividad"
  userId := some "u1"
  history := .vnull
  imageData := none

/-- Environment whose first stream requests an unregistered tool. -/
def envC4 : Env where
  personality := none
  rules := []
  stream1 := [[Part.functionCall "frobnicate" []]]
  stream1Final := [Part.text "lo siento"]
  toolExec := fun _ _ => .vobj [("success", .vbool true), ("message", .vstr "ok")]
  stream2 := []
  stream2Final := [Part.text "x"]
  finalHistory := .vnull

/-- Inbound event for `envC4`. -/
def dataC4 : Inbound where
  message := some "hola"
  userId := some "u1"
  history := .vnull
  imageData := none

/-- Environment whose first stream yields one registered tool call. -/
def envW1 : Env where
  personality := none
  rules := []
  stream1 := [[Part.functionCall "generateQuote" [("partName", Value.vstr "faro")]]]
  stream1Final := [Part.functionCall "generateQuote" [("partName", Value.vstr "faro")]]
  toolExec := fun _ _ =>
    .vobj [("success", .vbool true), ("quoteId", .vstr "q1"), ("message", .vstr "ok")]
  stream2 := [[Part.text "listo"]]
  stream2Final := [Part.text "listo"]
  finalHistory := .vnull

/-- Inbound event for `envW1`. -/
def dataW1 : Inbound where
  message := some "quiero una cotización"
  userId := some "u1"
  history := .vnull
  imageData := none

/-- Content entry naming a `logActivity` function call. -/
def mentionsLogActivityCall (c : Content) : Bool :=
  match c with
  | .cfunctionCall n _ => n == "logActivity"
  | _ => false

/-- The function-call record a persisted content entry carries, if any. -/
def contentFunctionCall (c : Content) : Option (String × ArgMap) :=
  match c with
  | .cfunctionCall n a => some (n, a)
  | _ => none

/-- All function-call records persisted anywhere in an effect trace, in
store order: the tool calls the turn attaches to its persisted records. -/
def persistedToolCallRecords (l : List Effect) : List (String × ArgMap) :=
  l.flatMap (fun e =>
    match e with
    | .persistMessage _ _ content => content.filterMap contentFunctionCall
    | _ => [])

/-- Environment with two tool-call fragments whose aggregated first
response begins with a nonempty text part. -/
def envW3 : Env where
  personality := none
  rules := []
  stream1 := [[Part.functionCall "createTaskTool" []], [Part.functionCall "logActivity" []]]
  stream1Final := [Part.text "Claro", Part.functionCall "createTaskTool" [],
    Part.functionCall "logActivity" []]
  toolExec := fun _ _ => .vobj [("success", .vbool true), ("message", .vstr "ok")]
  stream2 := [[Part.text "hecho"]]
  stream2Final := [Part.text "hecho"]
  finalHistory := .vnull

/-- Inbound event for `envW3`. -/
def dataW3 : Inbound where
  message := some "crea una tarea"
  userId := some "u1"
  history := .vnull
  imageData := none

/-- The client chat controller's configured history bound (`historyLimit = 5`). -/
def historyLimit : Nat := 5

/-- The in-place truncation
`this.chat.history = this.chat.history.slice(length - historyLimit)` that
`streamChatMessage` performs before the stream starts, as a function. -/
def truncateHistory {α : Type} (history : List α) : List α :=
  if history.length > historyLimit then history.drop (history.length - historyLimit)
  else history

/-- One observable step of the client's `streamChatMessage`. -/
inductive ClientStep (α : Type) where
  | truncate (before after : List α)
  | startStream (historyAtStart : List α) (message : String)
  | chunk (s : String)

/-- The trace of one `streamChatMessage` call: truncate the session history,
start the stream on the truncated history, then relay chunks until the
stop callback fires; the second component is the history as the call
leaves it (written before the stream starts, untouched afterwards). -/
def streamChatMessage {α : Type} (history : List α) (userInput : String)
    (chunks : List String) (stopAfter : Nat) : List (ClientStep α) × List α :=
  let truncated := truncateHistory history
  (ClientStep.truncate history truncated
      :: ClientStep.startStream truncated userInput
      :: (chunks.take stopAfter).map ClientStep.chunk,
   truncated)

end Nyx

namespace Nyx

theorem saveMessageContent_append (l₁ l₂ : List Part) :
    saveMessageContent (l₁ ++ l₂) = saveMessageContent l₁ ++ saveMessageContent l₂ := by
  simp [saveMessageContent]

theorem persistedIndices_pairwise (parts : List Part) :
    (persistedIndices parts).Pairwise (· < ·) := by
  have hsub : List.Sublist (persistedIndices parts) (parts.enum.map Prod.fst) := by
    exact (List.filter_sublist _).map Prod.fst
  have hrange : parts.enum.map Prod.fst = List.range parts.length := by
    simp
  have hpw : (List.range parts.length).Pairwise (· < ·) := List.pairwise_lt_range _
  exact hpw.sublist (hrange ▸ hsub)

/-- C7: for every model turn that gets persisted, the persisted content
sequence preserves the order in which its fragments were emitted: the
content written for a concatenation of emissions is the concatenation of
the contents, and the emission indices of the persisted fragments are
strictly increasing, so no earlier fragment is persisted after a later one. -/
theorem persisted_turn_preserves_emission_order (parts l₁ l₂ : List Part) :
    saveMessageContent (l₁ ++ l₂) = saveMessageContent l₁ ++ saveMessageContent l₂
    ∧ (persistedIndices parts).Pairwise (· < ·) :=
  ⟨saveMessageContent_append l₁ l₂, persistedIndices_pairwise parts⟩

/-- C8: reloading a persisted turn through `handleHistoryRequest`'s mapping
is the identity on the tagged fragment sequence, for turns made of actual
fragments (no falsy array entries). -/
theorem reload_persisted_turn_id (parts : List Part)
    (h : parts.all (fun p => ! p.isNullish) = true) :
    (saveMessageContent parts).map reloadPart = parts := by
  induction parts with
  | nil => rfl
  | cons p ps ih =>
    simp only [List.all_cons, Bool.and_eq_true] at h
    have hp := h.1
    have hps := ih h.2
    cases p with
    | text s =>
      by_cases hs : s = "" <;>
        simp [saveMessageContent, convertPart, reloadPart, hs] <;>
        simpa [saveMessageContent] using hps
    | functionCall n a => simpa [saveMessageContent, convertPart, reloadPart] using hps
    | functionResponse n r => simpa [saveMessageContent, convertPart, reloadPart] using hps
    | inlineData m d => simpa [saveMessageContent, convertPart, reloadPart] using hps
    | nullish => simp [Part.isNullish] at hp

/-- Witness for C8 at a concrete three-fragment turn. -/
theorem reload_persisted_turn_id_witness :
    ([Part.text "hola", Part.functionCall "generateQuote" [("partName", Value.vstr "faro")],
      Part.functionResponse "generateQuote" (Value.vstr "ok")].all
        (fun p => ! p.isNullish) = true)
    ∧ (saveMessageContent [Part.text "hola",
        Part.functionCall "generateQuote" [("partName", Value.vstr "faro")],
        Part.functionResponse "generateQuote" (Value.vstr "ok")]).map reloadPart
      = [Part.text "hola", Part.functionCall "generateQuote" [("partName", Value.vstr "faro")],
         Part.functionResponse "generateQuote" (Value.vstr "ok")] :=
  ⟨rfl, reload_persisted_turn_id _ rfl⟩

theorem splitLines_ne_nil (l : List Char) : splitLines l ≠ [] := by
  cases l with
  | nil => simp [splitLines]
  | cons c cs =>
    simp only [splitLines]
    split
    · simp
    · split <;> simp

theorem splitLines_append_cons (a b : List Char) :
    splitLines (a ++ '\n' :: b) = splitLines a ++ splitLines b := by
  induction a with
  | nil => simp [splitLines]
  | cons c cs ih =>
    simp only [List.cons_append, splitLines]
    by_cases hc : c = '\n'
    · simp [hc, ih]
    · rw [if_neg hc, if_neg hc]
      simp only [List.append_eq]
      rw [ih]
      cases h : splitLines cs with
      | nil => exact absurd h (splitLines_ne_nil cs)
      | cons y ys => simp

theorem splitLines_no_nl (a : List Char) (h : '\n' ∉ a) : splitLines a = [a] := by
  induction a with
  | nil => rfl
  | cons c cs ih =>
    simp only [List.mem_cons, not_or] at h
    have hc : ¬ c = '\n' := fun hh => h.1 hh.symm
    simp [splitLines, hc, ih h.2]

theorem splitLines_jsJoin (l : List String) (hne : l ≠ [])
    (h : ∀ r ∈ l, '\n' ∉ r.data) :
    splitLines (jsJoin "\n" l).data = l.map String.data := by
  induction l with
  | nil => exact absurd rfl hne
  | cons x xs ih =>
    cases xs with
    | nil =>
      simp [jsJoin, splitLines_no_nl x.data (h x (by simp))]
    | cons y ys =>
      have hd : (x ++ "\n" ++ jsJoin "\n" (y :: ys)).data
          = x.data ++ '\n' :: (jsJoin "\n" (y :: ys)).data := by
        simp [String.data_append]
      simp only [jsJoin, hd, splitLines_append_cons]
      rw [splitLines_no_nl x.data (h x (by simp)), ih (by simp) (fun r hr => h r (by simp [hr]))]
      simp

/-- C2: every composed system prompt contains all stored rule texts for the
session, each on its own line (prefixed `- `), in creation order, directly
under the labeled block header; and composing again from the same rule set
yields the identical prompt string. -/
theorem compose_prompt_rules_block (b : String) (rules : List String)
    (hne : rules ≠ []) (hnl : ∀ r ∈ rules, '\n' ∉ r.data) :
    (∃ pre post,
      splitLines (composeSystemPrompt b rules).data
        = pre ++ rulesBlockLabel.data :: (rules.map (fun r => ("- " ++ r).data) ++ post))
    ∧ composeSystemPrompt b rules = composeSystemPrompt b rules := by
  refine ⟨⟨splitLines b.data ++ [("        ").data], splitLines promptDirectivesBody.data, ?_⟩, rfl⟩
  have hlen : (rules.map (fun r => "- " ++ r)).length > 0 := by
    cases rules with
    | nil => exact absurd rfl hne
    | cons x xs => simp
  have hurp : userRulesPrompt rules
      = "\n" ++ rulesBlockLabel ++ "\n" ++ jsJoin "\n" (rules.map (fun r => "- " ++ r)) := by
    simp only [userRulesPrompt, if_pos hlen]
  have hdata : (composeSystemPrompt b rules).data
      = b.data ++ '\n' :: (("        ").data ++ '\n' :: (rulesBlockLabel.data ++ '\n' ::
          ((jsJoin "\n" (rules.map (fun r => "- " ++ r))).data
            ++ '\n' :: promptDirectivesBody.data))) := by
    simp [composeSystemPrompt, hurp, promptDirectives, String.data_append]
  rw [hdata, splitLines_append_cons, splitLines_append_cons, splitLines_append_cons,
      splitLines_append_cons]
  rw [splitLines_no_nl ("        ").data (by decide),
      splitLines_no_nl rulesBlockLabel.data (by decide)]
  rw [splitLines_jsJoin (rules.map (fun r => "- " ++ r))
        (by simpa using hne)
        (by
          intro r hr
          obtain ⟨r0, hr0, rfl⟩ := List.mem_map.1 hr
          have : ("- " ++ r0).data = ("- ").data ++ r0.data := by simp [String.data_append]
          rw [this]
          simp only [List.mem_append, not_or]
          exact ⟨by decide, hnl r0 hr0⟩)]
  simp [List.map_map, Function.comp]

/-- Witness for C2: a concrete persona with two stored rules. -/
theorem compose_prompt_rules_block_witness :
    ((["regla uno", "regla dos"] : List String) ≠ []
      ∧ ∀ r ∈ (["regla uno", "regla dos"] : List String), '\n' ∉ r.data)
    ∧ ((∃ pre post,
        splitLines (composeSystemPrompt "Eres Nyx." ["regla uno", "regla dos"]).data
          = pre ++ rulesBlockLabel.data
              :: ((["regla uno", "regla dos"] : List String).map (fun r => ("- " ++ r).data)
                  ++ post))
      ∧ composeSystemPrompt "Eres Nyx." ["regla uno", "regla dos"]
          = composeSystemPrompt "Eres Nyx." ["regla uno", "regla dos"]) :=
  ⟨⟨by decide, by decide⟩, compose_prompt_rules_block "Eres Nyx." _ (by decide) (by decide)⟩

theorem invocations_append (a b : List Effect) :
    invocations (a ++ b) = invocations a ++ invocations b := by
  simp [invocations]

theorem errorEvents_append (a b : List Effect) :
    errorEvents (a ++ b) = errorEvents a ++ errorEvents b := by
  simp [errorEvents]

theorem resumeSteps_append (a b : List Effect) :
    resumeSteps (a ++ b) = resumeSteps a ++ resumeSteps b := by
  simp [resumeSteps]

theorem effects_classify_chunkSends (s : List (List Part)) :
    invocations (streamChunkSends s) = []
    ∧ errorEvents (streamChunkSends s) = []
    ∧ resumeSteps (streamChunkSends s) = [] := by
  refine ⟨?_, ?_, ?_⟩
  · rw [invocations, streamChunkSends, List.filterMap_filterMap, List.filterMap_eq_nil_iff]
    intro parts _
    cases itemText parts <;> simp
  · rw [errorEvents, streamChunkSends, List.filterMap_filterMap, List.filterMap_eq_nil_iff]
    intro parts _
    cases itemText parts <;> simp
  · rw [resumeSteps, streamChunkSends, List.filter_filterMap, List.filterMap_eq_nil_iff]
    intro parts _
    cases itemText parts <;> simp

theorem effects_classify_saves (u role : String) (parts : List Part) :
    invocations (saveMessageEffects u role parts) = []
    ∧ errorEvents (saveMessageEffects u role parts) = []
    ∧ resumeSteps (saveMessageEffects u role parts) = [] := by
  simp only [saveMessageEffects]
  split <;> exact ⟨rfl, rfl, rfl⟩

theorem effects_classify_guarded_save (c : Bool) (u role : String) (parts : List Part) :
    invocations (if c then saveMessageEffects u role parts else []) = []
    ∧ errorEvents (if c then saveMessageEffects u role parts else []) = []
    ∧ resumeSteps (if c then saveMessageEffects u role parts else []) = [] := by
  cases c
  · exact ⟨rfl, rfl, rfl⟩
  · simpa using effects_classify_saves u role parts

theorem effects_classify_handler (name : String) (r : Value) (args : ArgMap) :
    invocations (runHandler name r args).1 = []
    ∧ errorEvents (runHandler name r args).1 = []
    ∧ resumeSteps (runHandler name r args).1 = [] := by
  unfold runHandler
  split
  · cases h : outcomeSuccess r <;>
      simp [handlerAnalyzeImage, h, invocations, errorEvents, resumeSteps]
  · split
    · cases h : outcomeSuccess r <;>
        simp [handlerGenerateQuote, h, invocations, errorEvents, resumeSteps]
    · split
      · cases h : outcomeSuccess r <;>
          simp [handlerDevRequest, h, invocations, errorEvents, resumeSteps]
      · cases h : outcomeSuccess r <;>
          simp [handlerDefault, h, invocations, errorEvents, resumeSteps]

theorem toolBranch_registered (env : Env) (u : String) (img : Option String)
    (name : String) (args : ArgMap) (rest : List (String × ArgMap))
    (htc : detectedToolCalls env = (name, args) :: rest)
    (hreg : name ∈ registeredTools)
    (p2 : Part) (ps2 : List Part) (hf2 : env.stream2Final = p2 :: ps2) :
    toolBranchEffects env u img = .ok (
      [Effect.invokeTool name (mergedToolArgs name args u img)]
      ++ saveMessageEffects u "model" [.functionCall name args]
      ++ saveMessageEffects u "model"
          [.functionResponse name (.vobj [("name", .vstr name),
            ("content", env.toolExec name (mergedToolArgs name args u img))])]
      ++ (runHandler name (env.toolExec name (mergedToolArgs name args u img)) args).1
      ++ [Effect.resumeModel name (.vobj [("name", .vstr name),
            ("content", (runHandler name (env.toolExec name (mergedToolArgs name args u img)) args).2)])]
      ++ streamChunkSends env.stream2
      ++ (if partTextTruthy p2 then saveMessageEffects u "model" (p2 :: ps2) else [])) := by
  simp only [toolBranchEffects, htc, if_pos hreg, hf2, finalSaveStep]
  try simp [List.append_assoc]

theorem toolBranch_unregistered (env : Env) (u : String) (img : Option String)
    (name : String) (args : ArgMap) (rest : List (String × ArgMap))
    (htc : detectedToolCalls env = (name, args) :: rest)
    (hreg : name ∉ registeredTools) :
    toolBranchEffects env u img = .ok [Effect.wsSend "error" (.vstr (unknownToolMsg name))] := by
  simp only [toolBranchEffects, htc, if_neg hreg]

theorem processWSM_ok_unfold (env : Env) (data : Inbound) (m u : String)
    (hm : data.message = some m) (hm' : m ≠ "")
    (hu : data.userId = some u) (hu' : u ≠ "")
    (br : List Effect) (hbr : toolBranchEffects env u data.imageData = .ok br)
    (p1 : Part) (ps1 : List Part) (hf1 : env.stream1Final = p1 :: ps1) :
    processWebSocketMessage env data =
      saveMessageEffects u "user" (userMessageParts m data.imageData)
      ++ [Effect.startModel
            (composeSystemPrompt (env.personality.getD fallbackPersona) env.rules)
            data.history]
      ++ streamChunkSends env.stream1
      ++ br
      ++ (if partTextTruthy p1 then saveMessageEffects u "model" (p1 :: ps1) else [])
      ++ [.wsSend "chat-stream-end" (.vobj [("history", env.finalHistory)])] := by
  have hm'' : (m == "") = false := beq_eq_false_iff_ne.mpr hm'
  have hu'' : (u == "") = false := beq_eq_false_iff_ne.mpr hu'
  simp [processWebSocketMessage, hm, hu, jsFalsyStr, hm'', hu'', hbr, hf1, finalSaveStep,
    List.append_assoc]

theorem find?_map_objSet_self (m : ArgMap) (k : String) (v : Value)
    (h : m.any (fun p => p.1 == k) = true) :
    (m.map (fun p => if p.1 == k then (k, v) else p)).find? (fun p => p.1 == k)
      = some (k, v) := by
  induction m with
  | nil => simp at h
  | cons p ps ih =>
    rw [List.map_cons]
    simp only [List.find?_cons]
    by_cases hp : (p.1 == k) = true
    · rw [if_pos hp]
      simp
    · rw [if_neg hp]
      have hps : ps.any (fun q => q.1 == k) = true := by
        simp only [List.any_cons] at h
        rcases Bool.or_eq_true_iff.mp h with h' | h'
        · exact absurd h' hp
        · exact h'
      have hpf : (p.1 == k) = false := Bool.eq_false_iff.mpr hp
      rw [hpf]
      exact ih hps

theorem find?_map_objSet_ne (m : ArgMap) (k k' : String) (v : Value)
    (hk : (k == k') = false) :
    (m.map (fun p => if p.1 == k then (k, v) else p)).find? (fun p => p.1 == k')
      = m.find? (fun p => p.1 == k') := by
  induction m with
  | nil => rfl
  | cons p ps ih =>
    rw [List.map_cons]
    simp only [List.find?_cons]
    by_cases hp : (p.1 == k) = true
    · have hpk : p.1 = k := eq_of_beq hp
      rw [if_pos hp]
      rw [show (((k, v) : String × Value).1 == k') = false from hk]
      rw [show (p.1 == k') = false by rw [hpk]; exact hk]
      exact ih
    · rw [if_neg hp]
      by_cases hp' : (p.1 == k') = true
      · rw [hp']
      · have hpf' : (p.1 == k') = false := Bool.eq_false_iff.mpr hp'
        rw [hpf']
        exact ih

theorem jsLookup_objSet_self (m : ArgMap) (k : String) (v : Value) :
    jsLookup (objSet m k v) k = some v := by
  unfold objSet jsLookup
  split
  case isTrue h => rw [find?_map_objSet_self m k v h]; rfl
  case isFalse h =>
    have hnone : m.find? (fun p => p.1 == k) = none := by
      rw [List.find?_eq_none]
      intro x hx
      exact List.any_eq_false.mp (Bool.eq_false_iff.mpr h) x hx
    simp [List.find?_append, hnone, List.find?_cons]

theorem jsLookup_objSet_ne (m : ArgMap) (k k' : String) (v : Value) (hk : k' ≠ k) :
    jsLookup (objSet m k v) k' = jsLookup m k' := by
  have hkk : (k == k') = false := beq_eq_false_iff_ne.mpr (fun e => hk e.symm)
  unfold objSet jsLookup
  split
  case isTrue h => rw [find?_map_objSet_ne m k k' v hkk]
  case isFalse h =>
    rw [List.find?_append]
    cases hm : m.find? (fun p => p.1 == k') with
    | some x => simp
    | none => simp [List.find?_cons, hkk]

theorem mergedToolArgs_userId (name : String) (args : ArgMap) (u : String)
    (img : Option String) :
    jsLookup (mergedToolArgs name args u img) "userId" = some (.vstr u) := by
  unfold mergedToolArgs
  split
  · rw [jsLookup_objSet_ne _ "imageData" "userId" _ (by decide)]
    exact jsLookup_objSet_self args "userId" (.vstr u)
  · exact jsLookup_objSet_self args "userId" (.vstr u)

theorem mergedToolArgs_other (name : String) (args : ArgMap) (u : String)
    (img : Option String) (k : String) (h1 : k ≠ "userId") (h2 : k ≠ "imageData") :
    jsLookup (mergedToolArgs name args u img) k = jsLookup args k := by
  unfold mergedToolArgs
  split
  · rw [jsLookup_objSet_ne _ _ _ _ h2, jsLookup_objSet_ne _ _ _ _ h1]
  · rw [jsLookup_objSet_ne _ _ _ _ h1]

theorem invocations_saves (u role : String) (parts : List Part) :
    invocations (saveMessageEffects u role parts) = [] :=
  (effects_classify_saves u role parts).1

theorem errorEvents_saves (u role : String) (parts : List Part) :
    errorEvents (saveMessageEffects u role parts) = [] :=
  (effects_classify_saves u role parts).2.1

theorem resumeSteps_saves (u role : String) (parts : List Part) :
    resumeSteps (saveMessageEffects u role parts) = [] :=
  (effects_classify_saves u role parts).2.2

theorem invocations_chunkSends (s : List (List Part)) :
    invocations (streamChunkSends s) = [] :=
  (effects_classify_chunkSends s).1

theorem errorEvents_chunkSends (s : List (List Part)) :
    errorEvents (streamChunkSends s) = [] :=
  (effects_classify_chunkSends s).2.1

theorem resumeSteps_chunkSends (s : List (List Part)) :
    resumeSteps (streamChunkSends s) = [] :=
  (effects_classify_chunkSends s).2.2

theorem invocations_guarded_save (c : Bool) (u role : String) (parts : List Part) :
    invocations (if c then saveMessageEffects u role parts else []) = [] :=
  (effects_classify_guarded_save c u role parts).1

theorem errorEvents_guarded_save (c : Bool) (u role : String) (parts : List Part) :
    errorEvents (if c then saveMessageEffects u role parts else []) = [] :=
  (effects_classify_guarded_save c u role parts).2.1

theorem resumeSteps_guarded_save (c : Bool) (u role : String) (parts : List Part) :
    resumeSteps (if c then saveMessageEffects u role parts else []) = [] :=
  (effects_classify_guarded_save c u role parts).2.2

theorem invocations_handler (name : String) (r : Value) (args : ArgMap) :
    invocations (runHandler name r args).1 = [] :=
  (effects_classify_handler name r args).1

theorem errorEvents_handler (name : String) (r : Value) (args : ArgMap) :
    errorEvents (runHandler name r args).1 = [] :=
  (effects_classify_handler name r args).2.1

theorem resumeSteps_handler (name : String) (r : Value) (args : ArgMap) :
    resumeSteps (runHandler name r args).1 = [] :=
  (effects_classify_handler name r args).2.2

theorem invocations_cons_wsSend (ev : String) (p : Value) (l : List Effect) :
    invocations (Effect.wsSend ev p :: l) = invocations l := by
  simp [invocations]

theorem invocations_cons_persist (u role : String) (c : List Content) (l : List Effect) :
    invocations (Effect.persistMessage u role c :: l) = invocations l := by
  simp [invocations]

theorem invocations_cons_invoke (n : String) (a : ArgMap) (l : List Effect) :
    invocations (Effect.invokeTool n a :: l) = (n, a) :: invocations l := by
  simp [invocations]

theorem invocations_cons_start (s : String) (h : Value) (l : List Effect) :
    invocations (Effect.startModel s h :: l) = invocations l := by
  simp [invocations]

theorem invocations_cons_resume (n : String) (p : Value) (l : List Effect) :
    invocations (Effect.resumeModel n p :: l) = invocations l := by
  simp [invocations]

theorem errorEvents_cons_wsSend (ev : String) (p : Value) (l : List Effect) :
    errorEvents (Effect.wsSend ev p :: l)
      = (if ev = "error" then [p] else []) ++ errorEvents l := by
  by_cases h : ev = "error" <;> simp [errorEvents, h]

theorem errorEvents_cons_persist (u role : String) (c : List Content) (l : List Effect) :
    errorEvents (Effect.persistMessage u role c :: l) = errorEvents l := by
  simp [errorEvents]

theorem errorEvents_cons_invoke (n : String) (a : ArgMap) (l : List Effect) :
    errorEvents (Effect.invokeTool n a :: l) = errorEvents l := by
  simp [errorEvents]

theorem errorEvents_cons_start (s : String) (h : Value) (l : List Effect) :
    errorEvents (Effect.startModel s h :: l) = errorEvents l := by
  simp [errorEvents]

theorem errorEvents_cons_resume (n : String) (p : Value) (l : List Effect) :
    errorEvents (Effect.resumeModel n p :: l) = errorEvents l := by
  simp [errorEvents]

theorem resumeSteps_cons_wsSend (ev : String) (p : Value) (l : List Effect) :
    resumeSteps (Effect.wsSend ev p :: l) = resumeSteps l := by
  simp [resumeSteps]

theorem resumeSteps_cons_persist (u role : String) (c : List Content) (l : List Effect) :
    resumeSteps (Effect.persistMessage u role c :: l) = resumeSteps l := by
  simp [resumeSteps]

theorem resumeSteps_cons_invoke (n : String) (a : ArgMap) (l : List Effect) :
    resumeSteps (Effect.invokeTool n a :: l) = resumeSteps l := by
  simp [resumeSteps]

theorem resumeSteps_cons_start (s : String) (h : Value) (l : List Effect) :
    resumeSteps (Effect.startModel s h :: l) = resumeSteps l := by
  simp [resumeSteps]

theorem resumeSteps_cons_resume (n : String) (p : Value) (l : List Effect) :
    resumeSteps (Effect.resumeModel n p :: l) = Effect.resumeModel n p :: resumeSteps l := by
  simp [resumeSteps]

theorem invocations_nil : invocations [] = [] := rfl

theorem errorEvents_nil : errorEvents [] = [] := rfl

theorem resumeSteps_nil : resumeSteps [] = [] := rfl

/-- C5: an inbound event with a missing `message` or a missing session
identity produces exactly one `error` event and nothing else: no
persistence, no tool invocation, no model stream. -/
theorem missing_fields_single_error (env : Env) (data : Inbound)
    (h : data.message = none ∨ data.userId = none) :
    processWebSocketMessage env data = [.wsSend "error" (.vstr requiredFieldsMsg)] := by
  rcases h with h | h <;> simp [processWebSocketMessage, h, jsFalsyStr]

/-- Witness for C5: an inbound event with no `message` field. -/
theorem missing_fields_single_error_witness :
    ((Inbound.mk none (some "u1") Value.vnull none).message = none
      ∨ (Inbound.mk none (some "u1") Value.vnull none).userId = none)
    ∧ processWebSocketMessage sampleEnv (Inbound.mk none (some "u1") Value.vnull none)
        = [.wsSend "error" (.vstr requiredFieldsMsg)] :=
  ⟨Or.inl rfl, missing_fields_single_error sampleEnv _ (Or.inl rfl)⟩

/-- C10: an inbound event whose `message` or session identity is present but
empty is rejected exactly like a missing field, because the validation tests
falsiness: one `error` event and nothing else. -/
theorem empty_fields_single_error (env : Env) (data : Inbound)
    (h : data.message = some "" ∨ data.userId = some "") :
    processWebSocketMessage env data = [.wsSend "error" (.vstr requiredFieldsMsg)] := by
  rcases h with h | h <;> simp [processWebSocketMessage, h, jsFalsyStr]

/-- Witness for C10: an inbound event with an empty `message`. -/
theorem empty_fields_single_error_witness :
    ((Inbound.mk (some "") (some "u1") Value.vnull none).message = some ""
      ∨ (Inbound.mk (some "") (some "u1") Value.vnull none).userId = some "")
    ∧ processWebSocketMessage sampleEnv (Inbound.mk (some "") (some "u1") Value.vnull none)
        = [.wsSend "error" (.vstr requiredFieldsMsg)] :=
  ⟨Or.inl rfl, empty_fields_single_error sampleEnv _ (Or.inl rfl)⟩

/-- C4: when the model requests a tool whose name is not registered, no tool
executes, exactly one `error` event referencing that name is emitted, and no
second model round-trip is started. -/
theorem unknown_tool_single_error_no_roundtrip
    (env : Env) (data : Inbound) (m u name : String) (args : ArgMap)
    (rest : List (String × ArgMap)) (p1 : Part) (ps1 : List Part)
    (hm : data.message = some m) (hm' : m ≠ "")
    (hu : data.userId = some u) (hu' : u ≠ "")
    (htc : detectedToolCalls env = (name, args) :: rest)
    (hreg : name ∉ registeredTools)
    (hf1 : env.stream1Final = p1 :: ps1) :
    errorEvents (processWebSocketMessage env data) = [.vstr (unknownToolMsg name)]
    ∧ invocations (processWebSocketMessage env data) = []
    ∧ resumeSteps (processWebSocketMessage env data) = [] := by
  rw [processWSM_ok_unfold env data m u hm hm' hu hu'
        _ (toolBranch_unregistered env u data.imageData name args rest htc hreg)
        p1 ps1 hf1]
  refine ⟨?_, ?_, ?_⟩ <;>
    simp [errorEvents_append, invocations_append, resumeSteps_append,
      invocations_saves, errorEvents_saves, resumeSteps_saves,
      invocations_chunkSends, errorEvents_chunkSends, resumeSteps_chunkSends,
      invocations_guarded_save, errorEvents_guarded_save, resumeSteps_guarded_save,
      invocations_cons_wsSend, invocations_cons_persist, invocations_cons_invoke,
      invocations_cons_start, invocations_cons_resume,
      errorEvents_cons_wsSend, errorEvents_cons_persist, errorEvents_cons_invoke,
      errorEvents_cons_start, errorEvents_cons_resume,
      resumeSteps_cons_wsSend, resumeSteps_cons_persist, resumeSteps_cons_invoke,
      resumeSteps_cons_start, resumeSteps_cons_resume,
      invocations_nil, errorEvents_nil, resumeSteps_nil]

/-- Witness for C4: the model asks for the unregistered tool `frobnicate`. -/
theorem unknown_tool_single_error_no_roundtrip_witness :
    (detectedToolCalls envC4 = [("frobnicate", [])]
      ∧ "frobnicate" ∉ registeredTools)
    ∧ errorEvents (processWebSocketMessage envC4 dataC4)
        = [.vstr (unknownToolMsg "frobnicate")]
    ∧ invocations (processWebSocketMessage envC4 dataC4) = []
    ∧ resumeSteps (processWebSocketMessage envC4 dataC4) = [] :=
  ⟨⟨rfl, by decide⟩,
    unknown_tool_single_error_no_roundtrip envC4 dataC4 "hola" "u1" "frobnicate" [] []
      (Part.text "lo siento") [] rfl (by decide) rfl (by decide) rfl (by decide) rfl⟩

/-- C1 counterexample: for an `analyzeImage` turn the executor receives the
inbound image data in addition to the model arguments merged with the
session identity, so the received argument map does not equal that merge. -/
theorem merged_args_exact_counterexample :
    detectedToolCalls envC1 = [("analyzeImage", [])]
    ∧ invocations (processWebSocketMessage envC1 dataC1)
        ≠ [("analyzeImage", objSet [] "userId" (.vstr "u1"))] := by
  refine ⟨rfl, ?_⟩
  have hcalc : invocations (processWebSocketMessage envC1 dataC1)
      = [("analyzeImage",
          [("userId", Value.vstr "u1"), ("imageData", Value.vstr imgSampleData)])] := rfl
  rw [hcalc]
  intro hEq
  simp [objSet] at hEq

/-- C1 (amended): for a first-stream turn whose detected tool call names a
registered tool, the executor is invoked exactly once, with the
model-supplied arguments merged with the session identity — the identity
overriding any model-supplied `userId`, every other model-supplied key
preserved — except that `analyzeImage` additionally receives the inbound
image data under the `imageData` key. -/
theorem registered_tool_invoked_once_merged_args
    (env : Env) (data : Inbound) (m u name : String) (args : ArgMap)
    (rest : List (String × ArgMap)) (p1 : Part) (ps1 : List Part) (p2 : Part) (ps2 : List Part)
    (hm : data.message = some m) (hm' : m ≠ "")
    (hu : data.userId = some u) (hu' : u ≠ "")
    (htc : detectedToolCalls env = (name, args) :: rest)
    (hreg : name ∈ registeredTools)
    (hf1 : env.stream1Final = p1 :: ps1)
    (hf2 : env.stream2Final = p2 :: ps2) :
    invocations (processWebSocketMessage env data)
      = [(name, mergedToolArgs name args u data.imageData)]
    ∧ jsLookup (mergedToolArgs name args u data.imageData) "userId" = some (.vstr u)
    ∧ (∀ k, k ≠ "userId" → k ≠ "imageData" →
        jsLookup (mergedToolArgs name args u data.imageData) k = jsLookup args k) := by
  refine ⟨?_, mergedToolArgs_userId name args u data.imageData,
    fun k h1 h2 => mergedToolArgs_other name args u data.imageData k h1 h2⟩
  rw [processWSM_ok_unfold env data m u hm hm' hu hu'
        _ (toolBranch_registered env u data.imageData name args rest htc hreg p2 ps2 hf2)
        p1 ps1 hf1]
  simp [invocations_append, invocations_saves, invocations_chunkSends, invocations_guarded_save,
    invocations_handler, invocations_cons_wsSend, invocations_cons_persist,
    invocations_cons_invoke, invocations_cons_start, invocations_cons_resume, invocations_nil]

/-- Witness for the amended C1: a registered `generateQuote` call. -/
theorem registered_tool_invoked_once_merged_args_witness :
    (detectedToolCalls envW1 = [("generateQuote", [("partName", Value.vstr "faro")])]
      ∧ "generateQuote" ∈ registeredTools)
    ∧ invocations (processWebSocketMessage envW1 dataW1)
        = [("generateQuote",
            mergedToolArgs "generateQuote" [("partName", Value.vstr "faro")] "u1" none)]
    ∧ jsLookup (mergedToolArgs "generateQuote" [("partName", Value.vstr "faro")] "u1" none)
        "userId" = some (.vstr "u1") :=
  ⟨⟨rfl, by decide⟩,
    (registered_tool_invoked_once_merged_args envW1 dataW1 "quiero una cotización" "u1"
      "generateQuote" [("partName", Value.vstr "faro")] []
      (Part.functionCall "generateQuote" [("partName", Value.vstr "faro")]) []
      (Part.text "listo") []
      rfl (by decide) rfl (by decide) rfl (by decide) rfl rfl).1,
    (registered_tool_invoked_once_merged_args envW1 dataW1 "quiero una cotización" "u1"
      "generateQuote" [("partName", Value.vstr "faro")] []
      (Part.functionCall "generateQuote" [("partName", Value.vstr "faro")]) []
      (Part.text "listo") []
      rfl (by decide) rfl (by decide) rfl (by decide) rfl rfl).2.1⟩

theorem ptcr_nil : persistedToolCallRecords [] = [] := rfl

theorem ptcr_append (a b : List Effect) :
    persistedToolCallRecords (a ++ b)
      = persistedToolCallRecords a ++ persistedToolCallRecords b := by
  simp [persistedToolCallRecords]

theorem ptcr_cons_wsSend (ev : String) (p : Value) (l : List Effect) :
    persistedToolCallRecords (Effect.wsSend ev p :: l) = persistedToolCallRecords l := by
  simp [persistedToolCallRecords]

theorem ptcr_cons_persist (u role : String) (c : List Content) (l : List Effect) :
    persistedToolCallRecords (Effect.persistMessage u role c :: l)
      = c.filterMap contentFunctionCall ++ persistedToolCallRecords l := by
  simp [persistedToolCallRecords]

theorem ptcr_cons_invoke (n : String) (a : ArgMap) (l : List Effect) :
    persistedToolCallRecords (Effect.invokeTool n a :: l) = persistedToolCallRecords l := by
  simp [persistedToolCallRecords]

theorem ptcr_cons_start (sys : String) (h : Value) (l : List Effect) :
    persistedToolCallRecords (Effect.startModel sys h :: l) = persistedToolCallRecords l := by
  simp [persistedToolCallRecords]

theorem ptcr_cons_resume (n : String) (p : Value) (l : List Effect) :
    persistedToolCallRecords (Effect.resumeModel n p :: l) = persistedToolCallRecords l := by
  simp [persistedToolCallRecords]

theorem ptcr_saves (u role : String) (parts : List Part) :
    persistedToolCallRecords (saveMessageEffects u role parts)
      = (saveMessageContent parts).filterMap contentFunctionCall := by
  simp only [saveMessageEffects]
  split
  case isTrue h => simp [persistedToolCallRecords]
  case isFalse h =>
    have hnil : saveMessageContent parts = [] :=
      List.length_eq_zero.mp (Nat.eq_zero_of_not_pos h)
    simp [persistedToolCallRecords, hnil]

theorem ptcr_guarded_save (c : Bool) (u role : String) (parts : List Part) :
    persistedToolCallRecords (if c then saveMessageEffects u role parts else [])
      = if c then (saveMessageContent parts).filterMap contentFunctionCall else [] := by
  cases c
  · rfl
  · simpa using ptcr_saves u role parts

theorem ptcr_chunkSends (s : List (List Part)) :
    persistedToolCallRecords (streamChunkSends s) = [] := by
  induction s with
  | nil => rfl
  | cons h t ih =>
    simp only [streamChunkSends] at ih ⊢
    rw [List.filterMap_cons]
    cases itemText h with
    | none => simpa using ih
    | some sTxt => simpa [persistedToolCallRecords, List.flatMap_cons] using ih

theorem ptcr_handler (name : String) (r : Value) (args : ArgMap) :
    persistedToolCallRecords (runHandler name r args).1 = [] := by
  unfold runHandler
  split
  · cases h : outcomeSuccess r <;>
      simp [handlerAnalyzeImage, h, persistedToolCallRecords]
  · split
    · cases h : outcomeSuccess r <;>
        simp [handlerGenerateQuote, h, persistedToolCallRecords]
    · split
      · cases h : outcomeSuccess r <;>
          simp [handlerDevRequest, h, persistedToolCallRecords]
      · cases h : outcomeSuccess r <;>
          simp [handlerDefault, h, persistedToolCallRecords]

theorem userParts_no_calls (m : String) (img : Option String) :
    (saveMessageContent (userMessageParts m img)).filterMap contentFunctionCall = [] := by
  unfold userMessageParts
  cases img with
  | none =>
    by_cases hm : m = "" <;>
      simp [saveMessageContent, convertPart, contentFunctionCall, hm]
  | some sImg =>
    by_cases hs : (sImg == "") = true <;>
      by_cases hm : m = "" <;>
        simp [saveMessageContent, convertPart, contentFunctionCall, hm, hs]

theorem fcSave_records (n : String) (args : ArgMap) :
    (saveMessageContent [Part.functionCall n args]).filterMap contentFunctionCall
      = [(n, args)] := by
  simp [saveMessageContent, convertPart, contentFunctionCall]

theorem frSave_records (n : String) (r : Value) :
    (saveMessageContent [Part.functionResponse n r]).filterMap contentFunctionCall = [] := by
  simp [saveMessageContent, convertPart, contentFunctionCall]

/-- C3 counterexample: with two tool-call fragments and no leading text in
the aggregated first response, the second fragment is neither executed nor
attached to any persisted record of the turn. -/
theorem subsequent_call_not_attached_counterexample :
    detectedToolCalls envC3 = [("createTaskTool", []), ("logActivity", [])]
    ∧ (processWebSocketMessage envC3 dataC3).all
        (fun e =>
          match e with
          | .persistMessage _ _ content => ! content.any mentionsLogActivityCall
          | _ => true) = true :=
  ⟨rfl, rfl⟩

/-- C3 (amended): when the first stream yields several tool-call fragments
only the first is ever executed (exactly once); the tool-call records the
turn persists are exactly the first call's record plus whatever
function-call parts the two text-guarded aggregate saves contribute, so
subsequent fragments are attached only when the aggregated first response
begins with a nonempty text part (the whole aggregated part list, the
subsequent calls included, is then saved), and with no such leading text
they are dropped without being persisted. -/
theorem multiple_tool_calls_first_only
    (env : Env) (data : Inbound) (m u name : String) (args : ArgMap)
    (rest : List (String × ArgMap)) (p1 : Part) (ps1 : List Part) (p2 : Part) (ps2 : List Part)
    (hm : data.message = some m) (hm' : m ≠ "")
    (hu : data.userId = some u) (hu' : u ≠ "")
    (htc : detectedToolCalls env = (name, args) :: rest)
    (hreg : name ∈ registeredTools)
    (hf1 : env.stream1Final = p1 :: ps1)
    (hf2 : env.stream2Final = p2 :: ps2) :
    invocations (processWebSocketMessage env data)
      = [(name, mergedToolArgs name args u data.imageData)]
    ∧ persistedToolCallRecords (processWebSocketMessage env data)
        = (name, args)
          :: ((if partTextTruthy p2 then
                (saveMessageContent (p2 :: ps2)).filterMap contentFunctionCall else [])
            ++ (if partTextTruthy p1 then
                (saveMessageContent (p1 :: ps1)).filterMap contentFunctionCall else []))
    ∧ (partTextTruthy p1 = true →
        Effect.persistMessage u "model" (saveMessageContent (p1 :: ps1))
          ∈ processWebSocketMessage env data)
    ∧ (partTextTruthy p1 = false →
        persistedToolCallRecords (processWebSocketMessage env data)
          = (name, args)
            :: (if partTextTruthy p2 then
                (saveMessageContent (p2 :: ps2)).filterMap contentFunctionCall else [])) := by
  have hE := processWSM_ok_unfold env data m u hm hm' hu hu'
      _ (toolBranch_registered env u data.imageData name args rest htc hreg p2 ps2 hf2)
      p1 ps1 hf1
  have hrecords : persistedToolCallRecords (processWebSocketMessage env data)
      = (name, args)
        :: ((if partTextTruthy p2 then
              (saveMessageContent (p2 :: ps2)).filterMap contentFunctionCall else [])
          ++ (if partTextTruthy p1 then
              (saveMessageContent (p1 :: ps1)).filterMap contentFunctionCall else [])) := by
    rw [hE]
    simp [ptcr_append, ptcr_saves, ptcr_guarded_save, ptcr_chunkSends, ptcr_handler,
      ptcr_cons_wsSend, ptcr_cons_persist, ptcr_cons_invoke, ptcr_cons_start, ptcr_cons_resume,
      ptcr_nil, userParts_no_calls, fcSave_records, frSave_records]
  refine ⟨?_, hrecords, ?_, ?_⟩
  · rw [hE]
    simp [invocations_append, invocations_saves, invocations_chunkSends,
      invocations_guarded_save, invocations_handler, invocations_cons_wsSend,
      invocations_cons_persist, invocations_cons_invoke, invocations_cons_start,
      invocations_cons_resume, invocations_nil]
  · intro hpt
    have hlen : 0 < (saveMessageContent (p1 :: ps1)).length := by
      cases p1 with
      | text s =>
        by_cases hs : s = "" <;>
          simp [saveMessageContent, List.filterMap_cons, convertPart, hs]
      | functionCall n a => simp [partTextTruthy] at hpt
      | functionResponse n r => simp [partTextTruthy] at hpt
      | inlineData mm dd => simp [partTextTruthy] at hpt
      | nullish => simp [partTextTruthy] at hpt
    rw [hE]
    have hmem : Effect.persistMessage u "model" (saveMessageContent (p1 :: ps1))
        ∈ (if partTextTruthy p1 = true then saveMessageEffects u "model" (p1 :: ps1) else []) := by
      rw [if_pos hpt]
      simp only [saveMessageEffects]
      rw [if_pos hlen]
      exact List.mem_singleton.mpr rfl
    exact List.mem_append.mpr (Or.inl (List.mem_append.mpr (Or.inr hmem)))
  · intro hpf
    rw [hrecords]
    have hdrop : (if partTextTruthy p1 = true then
        (saveMessageContent (p1 :: ps1)).filterMap contentFunctionCall else []) = [] :=
      if_neg (by simp [hpf])
    rw [hdrop, List.append_nil]

/-- Witness for the amended C3: two detected tool calls with a leading-text
aggregated first response; the first call is invoked exactly once, the
persisted tool-call records are the first call's record followed by the
aggregate's function-call parts (the second, never-executed call among
them), and the aggregate save is concretely present in the trace. -/
theorem multiple_tool_calls_first_only_witness :
    (detectedToolCalls envW3 = [("createTaskTool", []), ("logActivity", [])]
      ∧ "createTaskTool" ∈ registeredTools
      ∧ partTextTruthy (Part.text "Claro") = true)
    ∧ invocations (processWebSocketMessage envW3 dataW3)
        = [("createTaskTool", mergedToolArgs "createTaskTool" [] "u1" none)]
    ∧ persistedToolCallRecords (processWebSocketMessage envW3 dataW3)
        = [("createTaskTool", []), ("createTaskTool", []), ("logActivity", [])]
    ∧ Effect.persistMessage "u1" "model"
        (saveMessageContent [Part.text "Claro", Part.functionCall "createTaskTool" [],
          Part.functionCall "logActivity" []])
        ∈ processWebSocketMessage envW3 dataW3 := by
  have t := multiple_tool_calls_first_only envW3 dataW3 "crea una tarea" "u1"
    "createTaskTool" [] [("logActivity", [])]
    (Part.text "Claro")
    [Part.functionCall "createTaskTool" [], Part.functionCall "logActivity" []]
    (Part.text "hecho") []
    rfl (by decide) rfl (by decide) rfl (by decide) rfl rfl
  exact ⟨⟨rfl, by decide, rfl⟩, t.1, t.2.1, t.2.2.1 rfl⟩

theorem statusAgrees_valueStatus_self (v : Value) :
    statusAgrees (valueStatus v) (outcomeSuccess v) = true := by
  cases v with
  | vobj fields =>
    simp only [valueStatus]
    split
    · simp [statusAgrees, outcomeSuccess]
    · rfl
  | vundefined => rfl
  | vnull => rfl
  | vbool b => rfl
  | vnum n => rfl
  | vstr s => rfl
  | varr es => rfl

theorem all_guarded_singleton (c : Bool) (e : Effect) (f : Effect → Bool) (h : f e = true) :
    (if c then [e] else []).all f = true := by
  cases c <;> simp [h]

/-- C6: for every tool name and outcome, the selected result handler derives
both the side-channel event and the model-facing payload from that one
outcome, and the two never diverge in success/failure status: every status
a produced side-channel event reports, and the status the model-facing
payload reports, agree with the outcome's success flag. -/
theorem handler_outputs_status_consistent (name : String) (outcome : Value) (args : ArgMap)
    (hA : name = "analyzeImage" → valueStatus (jsGet outcome "analysis") = none) :
    ((runHandler name outcome args).1.all
        (fun e => statusAgrees (eventStatus e) (outcomeSuccess outcome)) = true)
    ∧ statusAgrees (valueStatus (runHandler name outcome args).2) (outcomeSuccess outcome)
        = true := by
  unfold runHandler
  split
  · rename_i hname
    have hAn := hA hname
    unfold handlerAnalyzeImage
    refine ⟨all_guarded_singleton _ _ _ (by simp [eventStatus, hAn, statusAgrees]), ?_⟩
    cases hs : outcomeSuccess outcome
    · have hself := statusAgrees_valueStatus_self outcome
      rw [hs] at hself
      simpa [hs] using hself
    · simp [hs, hAn, statusAgrees]
  · split
    · unfold handlerGenerateQuote
      refine ⟨all_guarded_singleton _ _ _
          (by simp [eventStatus, statusAgrees_valueStatus_self]), ?_⟩
      simp [valueStatus, jsGet, statusAgrees, outcomeSuccess, List.find?_cons]
    · split
      · unfold handlerDevRequest
        refine ⟨all_guarded_singleton _ _ _
            (by simp [eventStatus, valueStatus, statusAgrees]), ?_⟩
        exact statusAgrees_valueStatus_self outcome
      · unfold handlerDefault
        refine ⟨?_, statusAgrees_valueStatus_self outcome⟩
        cases hs : outcomeSuccess outcome <;>
          simp [eventStatus, jsGet, statusAgrees, hs, List.find?_cons]

/-- Witness for C6: the default handler on a successful `createTaskTool`
outcome. -/
theorem handler_outputs_status_consistent_witness :
    (("createTaskTool" : String) = "analyzeImage" →
      valueStatus (jsGet (Value.vobj [("success", Value.vbool true), ("message", Value.vstr "ok")])
        "analysis") = none)
    ∧ ((runHandler "createTaskTool"
          (Value.vobj [("success", Value.vbool true), ("message", Value.vstr "ok")]) []).1.all
        (fun e => statusAgrees (eventStatus e)
          (outcomeSuccess
            (Value.vobj [("success", Value.vbool true), ("message", Value.vstr "ok")]))) = true)
    ∧ statusAgrees
        (valueStatus (runHandler "createTaskTool"
          (Value.vobj [("success", Value.vbool true), ("message", Value.vstr "ok")]) []).2)
        (outcomeSuccess (Value.vobj [("success", Value.vbool true), ("message", Value.vstr "ok")]))
        = true :=
  ⟨fun h => absurd h (by decide),
    (handler_outputs_status_consistent "createTaskTool"
      (Value.vobj [("success", Value.vbool true), ("message", Value.vstr "ok")]) []
      (fun h => absurd h (by decide))).1,
    (handler_outputs_status_consistent "createTaskTool"
      (Value.vobj [("success", Value.vbool true), ("message", Value.vstr "ok")]) []
      (fun h => absurd h (by decide))).2⟩

/-- C9: for every inbound client message the conversation history is
truncated to the configured bound before the model stream of the turn
starts — the stream is started on exactly the truncated history, whose
length is the minimum of the previous length and the bound — and the
history is never mutated while the stream is in flight: every step after
the stream start is a chunk relay, and the history the call leaves behind
is the one the stream started with. -/
theorem history_truncated_before_stream {α : Type} (history : List α) (userInput : String)
    (chunks : List String) (stopAfter : Nat) :
    (streamChatMessage history userInput chunks stopAfter).1
      = ClientStep.truncate history (truncateHistory history)
          :: ClientStep.startStream (truncateHistory history) userInput
          :: (chunks.take stopAfter).map ClientStep.chunk
    ∧ (truncateHistory history).length = min history.length historyLimit
    ∧ (streamChatMessage history userInput chunks stopAfter).2 = truncateHistory history := by
  refine ⟨rfl, ?_, rfl⟩
  unfold truncateHistory
  split
  case isTrue h =>
    simp only [List.length_drop]
    omega
  case isFalse h =>
    simp only [not_lt] at h
    omega

end Nyx
